import Mathlib

/-!
Verification of the equity-ranking pipeline (hard screener, factor engine,
composite ranker) of the `ai_portfolio` repository.

The source modules are embedded shallowly:

* `config/settings.py` — the tunable constants become Lean constants.
* `agents/quant/agent4_screener.py` (`_screen_single`) — the hard screen over a
  fetched `Fundamentals` record.  A fetch that raises `DataProviderError` is
  modelled by `Except.error`; numeric fields are rationals.
* `agents/quant/agent5_factors.py` (`_compute_momentum`, `_compute_quality`,
  `_compute_volatility`, `_score_single`) — price series become
  `List (Option ℚ)` (a `none` entry is a null close, `dropna` removes them);
  the annualised volatility keeps its `std * sqrt 252` shape over `ℝ`, with the
  sample variance computed over `ℚ`.
* `agents/scoring/agent6_ranker.py` (`rank_stocks`) — the dataframe pipeline
  becomes list processing over `ℝ`: pandas `std(ddof=1)` is the square root of
  the sample variance; `sort_values(ascending=False)` runs with the default
  `kind="quicksort"`, which pandas documents as unstable for ties, so the
  program fixes no particular tie order — the model's `sort_rows` picks one
  concrete descending order (`insertionSort`) to stay executable, and no
  theorem below relies on the tie order it happens to produce; `head(n)`
  keeps pandas semantics for negative `n`, and Python's falsy-default
  `top_n or TOP_N_PER_SECTOR` is reproduced on `Option ℤ`.  Output values are
  rounded to four decimal places with `round4`.
-/

/-! ### Settings (config/settings.py) -/

def MIN_MARKET_CAP : ℚ := 2000000000

def MIN_AVG_DAILY_VOLUME_USD : ℚ := 5000000

def MAX_DEBT_TO_EQUITY : ℚ := 3

def MIN_PRICE : ℚ := 5

def MOMENTUM_LONG_WINDOW_DAYS : ℕ := 252

def MOMENTUM_SHORT_WINDOW_DAYS : ℕ := 21

def VOLATILITY_WINDOW_DAYS : ℕ := 63

noncomputable def FACTOR_WEIGHTS_momentum : ℝ := 0.40

noncomputable def FACTOR_WEIGHTS_quality : ℝ := 0.35

noncomputable def FACTOR_WEIGHTS_low_vol : ℝ := 0.25

def TOP_N_PER_SECTOR : ℤ := 3

/-! ### Data model -/

/-- The point-in-time fundamentals snapshot returned by
`DataProvider.get_fundamentals`; every field may be absent (`None`). -/
structure Fundamentals where
  price : Option ℚ
  market_cap : Option ℚ
  avg_daily_volume : Option ℚ
  debt_to_equity : Option ℚ
  return_on_equity : Option ℚ
  earnings_per_share : Option ℚ
deriving DecidableEq, Inhabited

/-- The record `agent4_screener.ScreeningResult`. -/
structure ScreeningResult where
  ticker : String
  passed : Bool
  reason : String
deriving DecidableEq

/-- The effect of `pandas.Series.dropna` on a column with nullable entries. -/
def dropna {α : Type} (xs : List (Option α)) : List α :=
  xs.filterMap id

/-! ### Agent 4 — hard screening (`_screen_single`) -/

/-- Embeds `agent4_screener._screen_single`.  The data fetch is passed in as an
`Except`: `Except.error e` models `get_fundamentals` raising
`DataProviderError e`.  The reason strings keep the fixed text of the source;
the interpolated numbers of the Python f-strings are elided. -/
def screen_single (ticker : String) (fetched : Except String Fundamentals) :
    ScreeningResult :=
  match fetched with
  | Except.error e => ⟨ticker, false, "Data unavailable: " ++ e⟩
  | Except.ok fundamentals =>
    match fundamentals.price with
    | none => ⟨ticker, false, "Price unavailable"⟩
    | some price =>
      if price < MIN_PRICE then ⟨ticker, false, "Price below minimum"⟩
      else
        match fundamentals.market_cap with
        | none => ⟨ticker, false, "Market cap unavailable"⟩
        | some market_cap =>
          if market_cap < MIN_MARKET_CAP then
            ⟨ticker, false, "Market cap below minimum"⟩
          else
            match fundamentals.avg_daily_volume with
            | none => ⟨ticker, false, "Average volume unavailable"⟩
            | some avg_vol =>
              if avg_vol < MIN_AVG_DAILY_VOLUME_USD then
                ⟨ticker, false, "Avg daily volume below minimum"⟩
              else
                match fundamentals.debt_to_equity with
                | some dte =>
                  if MAX_DEBT_TO_EQUITY < dte then
                    ⟨ticker, false, "Debt/equity exceeds maximum"⟩
                  else ⟨ticker, true, "All filters passed"⟩
                | none => ⟨ticker, true, "All filters passed"⟩

/-! ### Agent 5 — factor scoring -/

/-- Embeds `agent5_factors._compute_momentum`: 12-1 month price momentum.
`close.iloc[-k]` is the entry at position `length - k`. -/
def compute_momentum (prices : List (Option ℚ)) : Option ℚ :=
  let close := dropna prices
  if close.length < MOMENTUM_LONG_WINDOW_DAYS then none
  else
    let price_12m_ago := close.getD (close.length - MOMENTUM_LONG_WINDOW_DAYS) 0
    let price_1m_ago := close.getD (close.length - MOMENTUM_SHORT_WINDOW_DAYS) 0
    if price_12m_ago ≤ 0 then none
    else some ((price_1m_ago - price_12m_ago) / price_12m_ago)

/-- Embeds `agent5_factors._compute_quality`: clipped ROE and inverted clipped D/E,
averaged over whichever components are present. -/
def compute_quality (fundamentals : Fundamentals) : Option ℚ :=
  let roe := fundamentals.return_on_equity
  let dte := fundamentals.debt_to_equity
  if roe = none ∧ dte = none then none
  else
    let components : List ℚ :=
      (match roe with
       | some r => [(max (-(1 : ℚ)/2) (min 1 r) + 1/2) / (3/2)]
       | none => []) ++
      (match dte with
       | some d => [1 - max 0 (min 3 d) / 3]
       | none => [])
    some (components.sum / components.length)

/-- The effect of `pandas.Series.pct_change().dropna()` on a series with no null entries:
the daily simple return of each close relative to the previous close (the
leading `NaN` of `pct_change` is the dropped entry). -/
def pct_change (xs : List ℚ) : List ℚ :=
  List.zipWith (fun prev cur => (cur - prev) / prev) xs xs.tail

/-- Mean of a list of rationals (`pandas.Series.mean`). -/
def meanQ (xs : List ℚ) : ℚ :=
  xs.sum / xs.length

/-- Sample variance with `ddof = 1` (the square of `pandas.Series.std`). -/
def sampleVarQ (xs : List ℚ) : ℚ :=
  (xs.map (fun x => (x - meanQ xs) ^ 2)).sum / ((xs.length : ℚ) - 1)

/-- Embeds `agent5_factors._compute_volatility`: annualised realised volatility,
`daily_returns.std() * sqrt 252`, with `std` the square root of the sample
variance. -/
noncomputable def compute_volatility (prices : List (Option ℚ)) : Option ℝ :=
  let close := dropna prices
  if close.length < VOLATILITY_WINDOW_DAYS then none
  else
    let recent_close := close.drop (close.length - VOLATILITY_WINDOW_DAYS)
    let daily_returns := pct_change recent_close
    if daily_returns.length < 10 then none
    else some (Real.sqrt (sampleVarQ daily_returns) * Real.sqrt 252)

/-- The record `agent5_factors.FactorScores`: raw factor scores for one ticker, consumed
by the ranker.  Factor values live in `ℝ`. -/
structure FactorScores where
  ticker : String
  momentum : Option ℝ
  quality : Option ℝ
  low_vol : Option ℝ
deriving Inhabited

/-- Embeds `agent5_factors._score_single`.  The two data fetches are passed in as
`Except` values; `Except.error` models `DataProviderError`.  Momentum and
quality are computed over `ℚ` and injected into `ℝ`. -/
noncomputable def score_single (ticker : String)
    (prices : Except String (List (Option ℚ)))
    (fundamentals : Except String Fundamentals) : FactorScores :=
  match prices, fundamentals with
  | Except.ok p, Except.ok f =>
    { ticker := ticker
      momentum := (compute_momentum p).map (fun q => (q : ℝ))
      quality := (compute_quality f).map (fun q => (q : ℝ))
      low_vol := compute_volatility p }
  | Except.error _, _ => ⟨ticker, none, none, none⟩
  | _, Except.error _ => ⟨ticker, none, none, none⟩

/-! ### Agent 6 — composite scoring and ranking (`rank_stocks`) -/

/-- The record `agent6_ranker.RankedStock` (its float fields are always filled after the
neutral-fill step, so they are plain reals here). -/
structure RankedStock where
  ticker : String
  composite_score : ℝ
  momentum_z : ℝ
  quality_z : ℝ
  low_vol_z : ℝ
  rank : ℕ

/-- One row of the ranker's working dataframe after z-scoring and the
composite-score column. -/
structure ScoredRow where
  ticker : String
  momentum_z : ℝ
  quality_z : ℝ
  low_vol_z : ℝ
  composite_score : ℝ
deriving Inhabited

/-- Step 1 of `rank_stocks`: invert the raw volatility so that lower
volatility scores higher (`-v if v is not None else None`). -/
def invert_low_vol (s : FactorScores) : FactorScores :=
  { s with low_vol := s.low_vol.map (fun v => -v) }

/-- A ticker row survives `dropna(subset=factor_cols, how="all")` iff at least
one factor is present. -/
def has_any_factor (s : FactorScores) : Bool :=
  s.momentum.isSome || s.quality.isSome || s.low_vol.isSome

/-- Step 2 of `rank_stocks`: drop tickers whose factor scores are all
missing. -/
def drop_all_missing (xs : List FactorScores) : List FactorScores :=
  xs.filter has_any_factor

/-- Mean of a real column (`pandas.Series.mean(skipna=True)` applied to the
present values). -/
noncomputable def meanR (xs : List ℝ) : ℝ :=
  xs.sum / xs.length

/-- Sample variance with `ddof = 1` over the present values; pandas
`std(skipna=True)` is its square root, and is `NaN` exactly when fewer than
two values are present. -/
noncomputable def sampleVarR (xs : List ℝ) : ℝ :=
  (xs.map (fun x => (x - meanR xs) ^ 2)).sum / ((xs.length : ℝ) - 1)

/-- Step 3 of `rank_stocks` for one factor column: cross-sectional z-scores
over the present values, with the `std == 0 or pd.isna(std)` guard (fewer
than two present values is exactly the `isna` case) sending the whole column
to the neutral `0.0`, and `fillna(0.0)` sending every missing entry to the
neutral `0.0`. -/
noncomputable def zscore_col (xs : List (Option ℝ)) : List ℝ :=
  let present := dropna xs
  if present.length < 2 ∨ sampleVarR present = 0 then xs.map (fun _ => 0)
  else
    xs.map (fun o =>
      match o with
      | some v => (v - meanR present) / Real.sqrt (sampleVarR present)
      | none => 0)

/-- Steps 3–4 of `rank_stocks`: the z-score columns and the weighted composite
column, joined back into rows by position (the dataframe index). -/
noncomputable def scored_rows (kept : List FactorScores) : List ScoredRow :=
  let mz := zscore_col (kept.map (fun s => s.momentum))
  let qz := zscore_col (kept.map (fun s => s.quality))
  let vz := zscore_col (kept.map (fun s => s.low_vol))
  (List.range kept.length).map fun i =>
    { ticker := (kept.getD i default).ticker
      momentum_z := mz.getD i 0
      quality_z := qz.getD i 0
      low_vol_z := vz.getD i 0
      composite_score :=
        FACTOR_WEIGHTS_momentum * mz.getD i 0 +
        FACTOR_WEIGHTS_quality * qz.getD i 0 +
        FACTOR_WEIGHTS_low_vol * vz.getD i 0 }

/-- The descending-by-composite-score ordering used by
`sort_values("composite_score", ascending=False)`. -/
def composite_ge (a b : ScoredRow) : Prop :=
  b.composite_score ≤ a.composite_score

noncomputable instance : DecidableRel composite_ge :=
  fun _ _ => inferInstanceAs (Decidable (_ ≤ _))

instance : IsTotal ScoredRow composite_ge :=
  ⟨fun a b => le_total b.composite_score a.composite_score⟩

instance : IsTrans ScoredRow composite_ge :=
  ⟨fun _ _ _ h h2 => le_trans h2 h⟩

/-- Step 5 of `rank_stocks`: sort the rows by descending composite score.
The source calls `sort_values("composite_score", ascending=False)` with the
default `kind="quicksort"`, which pandas documents as unstable, so the
program guarantees the descending order but no particular order among tied
composite scores.  This model uses `insertionSort` as one concrete
deterministic order consistent with the descending sort; no theorem in this
file relies on the tie order it happens to produce. -/
noncomputable def sort_rows (rows : List ScoredRow) : List ScoredRow :=
  rows.insertionSort composite_ge

/-- Python `round(x, 4)` (modelled with round-half-up on reals). -/
noncomputable def round4 (x : ℝ) : ℝ :=
  (round (x * 10000) : ℤ) / 10000

/-- Build the output record for the row at 0-based sorted position `i`
(`df["rank"] = df.index + 1`, and the `round(..., 4)` calls of the output
comprehension). -/
noncomputable def to_ranked (i : ℕ) (r : ScoredRow) : RankedStock :=
  { ticker := r.ticker
    composite_score := round4 r.composite_score
    momentum_z := round4 r.momentum_z
    quality_z := round4 r.quality_z
    low_vol_z := round4 r.low_vol_z
    rank := i + 1 }

/-- Embeds `pandas.DataFrame.head` (a negative `n` keeps all rows but the last
`|n|`). -/
def df_head {α : Type} (n : ℤ) (l : List α) : List α :=
  if 0 ≤ n then l.take n.toNat else l.take (l.length - n.natAbs)

/-- The line `n = top_n or TOP_N_PER_SECTOR`: Python replaces a falsy `top_n`
(`None` or `0`) by the configured default. -/
def resolve_top_n (top_n : Option ℤ) : ℤ :=
  match top_n with
  | none => TOP_N_PER_SECTOR
  | some k => if k = 0 then TOP_N_PER_SECTOR else k

/-- Embeds `agent6_ranker.rank_stocks`. -/
noncomputable def rank_stocks (factor_scores : List FactorScores)
    (top_n : Option ℤ) : List RankedStock :=
  let n := resolve_top_n top_n
  if factor_scores.isEmpty then []
  else
    let kept := drop_all_missing (factor_scores.map invert_low_vol)
    if kept.isEmpty then []
    else
      let sorted := sort_rows (scored_rows kept)
      df_head n (sorted.enum.map (fun p => to_ranked p.1 p.2))

/-! ### C9 — screener check order and failure semantics -/

/-- C9: `_screen_single` evaluates price floor, market-cap floor,
average-dollar-volume floor and debt-to-equity ceiling in that fixed order and
the failing result names the first failing check; a missing price, market cap
or average volume is a failure, a missing debt-to-equity is skipped; a
provider fetch failure yields a failing result carrying the underlying error
message.  The screener is a total Lean function, so it never raises. -/
theorem C9_screener_fixed_order (t e : String) (f : Fundamentals) :
    (screen_single t (Except.error e) = ⟨t, false, "Data unavailable: " ++ e⟩)
  ∧ (f.price = none →
      screen_single t (Except.ok f) = ⟨t, false, "Price unavailable"⟩)
  ∧ (∀ p, f.price = some p → p < MIN_PRICE →
      screen_single t (Except.ok f) = ⟨t, false, "Price below minimum"⟩)
  ∧ (∀ p, f.price = some p → MIN_PRICE ≤ p → f.market_cap = none →
      screen_single t (Except.ok f) = ⟨t, false, "Market cap unavailable"⟩)
  ∧ (∀ p m, f.price = some p → MIN_PRICE ≤ p → f.market_cap = some m →
      m < MIN_MARKET_CAP →
      screen_single t (Except.ok f) = ⟨t, false, "Market cap below minimum"⟩)
  ∧ (∀ p m, f.price = some p → MIN_PRICE ≤ p → f.market_cap = some m →
      MIN_MARKET_CAP ≤ m → f.avg_daily_volume = none →
      screen_single t (Except.ok f) = ⟨t, false, "Average volume unavailable"⟩)
  ∧ (∀ p m v, f.price = some p → MIN_PRICE ≤ p → f.market_cap = some m →
      MIN_MARKET_CAP ≤ m → f.avg_daily_volume = some v →
      v < MIN_AVG_DAILY_VOLUME_USD →
      screen_single t (Except.ok f) =
        ⟨t, false, "Avg daily volume below minimum"⟩)
  ∧ (∀ p m v d, f.price = some p → MIN_PRICE ≤ p → f.market_cap = some m →
      MIN_MARKET_CAP ≤ m → f.avg_daily_volume = some v →
      MIN_AVG_DAILY_VOLUME_USD ≤ v → f.debt_to_equity = some d →
      MAX_DEBT_TO_EQUITY < d →
      screen_single t (Except.ok f) =
        ⟨t, false, "Debt/equity exceeds maximum"⟩)
  ∧ (∀ p m v, f.price = some p → MIN_PRICE ≤ p → f.market_cap = some m →
      MIN_MARKET_CAP ≤ m → f.avg_daily_volume = some v →
      MIN_AVG_DAILY_VOLUME_USD ≤ v →
      (f.debt_to_equity = none ∨
        ∃ d, f.debt_to_equity = some d ∧ d ≤ MAX_DEBT_TO_EQUITY) →
      screen_single t (Except.ok f) = ⟨t, true, "All filters passed"⟩) := by
  refine ⟨rfl, ?_, ?_, ?_, ?_, ?_, ?_, ?_, ?_⟩
  · intro hp
    simp [screen_single, hp]
  · intro p hp hlt
    simp [screen_single, hp, hlt]
  · intro p hp hge hm
    simp [screen_single, hp, not_lt.mpr hge, hm]
  · intro p m hp hge hm hmlt
    simp [screen_single, hp, not_lt.mpr hge, hm, hmlt]
  · intro p m hp hge hm hmge hv
    simp [screen_single, hp, not_lt.mpr hge, hm, not_lt.mpr hmge, hv]
  · intro p m v hp hge hm hmge hv hvlt
    simp [screen_single, hp, not_lt.mpr hge, hm, not_lt.mpr hmge, hv, hvlt]
  · intro p m v d hp hge hm hmge hv hvge hd hdlt
    simp [screen_single, hp, not_lt.mpr hge, hm, not_lt.mpr hmge, hv,
      not_lt.mpr hvge, hd, hdlt]
  · intro p m v hp hge hm hmge hv hvge hd
    rcases hd with hd | ⟨d, hd, hdle⟩
    · simp [screen_single, hp, not_lt.mpr hge, hm, not_lt.mpr hmge, hv,
        not_lt.mpr hvge, hd]
    · simp [screen_single, hp, not_lt.mpr hge, hm, not_lt.mpr hmge, hv,
        not_lt.mpr hvge, hd, not_lt.mpr hdle]

/-- C9 witness: the theorem applied at concrete inputs — a passing record with
an absent debt-to-equity (the skipped filter), a record failing only the
market-cap floor, and a failed fetch. -/
theorem C9_screener_fixed_order_witness :
    (screen_single "AAA" (Except.ok ⟨some 10, some 3000000000, some 6000000,
        none, some (1/5), none⟩) = ⟨"AAA", true, "All filters passed"⟩)
  ∧ (screen_single "BBB" (Except.ok ⟨some 10, some 1000000000, some 6000000,
        some 1, none, none⟩) = ⟨"BBB", false, "Market cap below minimum"⟩)
  ∧ (screen_single "CCC" (Except.error "boom") =
      ⟨"CCC", false, "Data unavailable: boom"⟩) := by
  refine ⟨?_, ?_, ?_⟩
  · exact (C9_screener_fixed_order "AAA" "" _).2.2.2.2.2.2.2.2 10 3000000000
      6000000 rfl (by norm_num [MIN_PRICE]) rfl (by norm_num [MIN_MARKET_CAP])
      rfl (by norm_num [MIN_AVG_DAILY_VOLUME_USD]) (Or.inl rfl)
  · exact (C9_screener_fixed_order "BBB" "" _).2.2.2.2.1 10 1000000000 rfl
      (by norm_num [MIN_PRICE]) rfl (by norm_num [MIN_MARKET_CAP])
  · exact (C9_screener_fixed_order "CCC" "boom" default).1

/-! ### C5 — quality factor -/

/-- The clipped-and-rescaled ROE component lies in `[0, 1]`. -/
theorem roe_component_bounds (r : ℚ) :
    0 ≤ (max (-(1 : ℚ)/2) (min 1 r) + 1/2) / (3/2) ∧
      (max (-(1 : ℚ)/2) (min 1 r) + 1/2) / (3/2) ≤ 1 := by
  have h1 : -(1 : ℚ)/2 ≤ max (-(1 : ℚ)/2) (min 1 r) := le_max_left _ _
  have h2 : max (-(1 : ℚ)/2) (min 1 r) ≤ 1 :=
    max_le (by norm_num) (min_le_left _ _)
  constructor
  · apply div_nonneg _ (by norm_num)
    linarith
  · rw [div_le_one (by norm_num)]
    linarith

/-- The clipped-and-inverted D/E component lies in `[0, 1]`. -/
theorem dte_component_bounds (d : ℚ) :
    0 ≤ 1 - max 0 (min 3 d) / 3 ∧ 1 - max 0 (min 3 d) / 3 ≤ 1 := by
  have h1 : (0 : ℚ) ≤ max 0 (min 3 d) := le_max_left _ _
  have h2 : max (0 : ℚ) (min 3 d) ≤ 3 :=
    max_le (by norm_num) (min_le_left _ _)
  constructor <;> [linarith; linarith]

/-- C5: the quality factor is absent iff both ROE and D/E are absent;
otherwise it is the arithmetic mean of the available components (clipped ROE
mapped linearly to `[0,1]`, clipped D/E inverted and mapped to `[0,1]`), and
every produced score lies in `[0, 1]`. -/
theorem C5_quality (f : Fundamentals) :
    (compute_quality f = none ↔
      f.return_on_equity = none ∧ f.debt_to_equity = none)
  ∧ (∀ q, compute_quality f = some q → 0 ≤ q ∧ q ≤ 1)
  ∧ (∀ r d, f.return_on_equity = some r → f.debt_to_equity = some d →
      compute_quality f =
        some (((max (-(1 : ℚ)/2) (min 1 r) + 1/2) / (3/2) +
               (1 - max 0 (min 3 d) / 3)) / 2))
  ∧ (∀ r, f.return_on_equity = some r → f.debt_to_equity = none →
      compute_quality f = some ((max (-(1 : ℚ)/2) (min 1 r) + 1/2) / (3/2)))
  ∧ (∀ d, f.return_on_equity = none → f.debt_to_equity = some d →
      compute_quality f = some (1 - max 0 (min 3 d) / 3)) := by
  refine ⟨?_, ?_, ?_, ?_, ?_⟩
  · constructor
    · intro h
      by_contra hc
      rw [not_and_or] at hc
      rcases hroe : f.return_on_equity with _ | r <;>
        rcases hdte : f.debt_to_equity with _ | d <;>
        simp [hroe, hdte] at hc <;>
        simp [compute_quality, hroe, hdte] at h
    · rintro ⟨h1, h2⟩
      simp [compute_quality, h1, h2]
  · intro q hq
    rcases hroe : f.return_on_equity with _ | r <;>
      rcases hdte : f.debt_to_equity with _ | d
    · simp [compute_quality, hroe, hdte] at hq
    · simp [compute_quality, hroe, hdte] at hq
      rcases dte_component_bounds d with ⟨hl, hr⟩
      constructor <;> [linarith [hq]; linarith [hq]]
    · simp [compute_quality, hroe, hdte] at hq
      rcases roe_component_bounds r with ⟨hl, hr⟩
      constructor <;> [linarith [hq]; linarith [hq]]
    · simp [compute_quality, hroe, hdte] at hq
      rcases roe_component_bounds r with ⟨hl1, hr1⟩
      rcases dte_component_bounds d with ⟨hl2, hr2⟩
      constructor <;> [linarith [hq]; linarith [hq]]
  · intro r d hroe hdte
    simp [compute_quality, hroe, hdte]
  · intro r hroe hdte
    simp [compute_quality, hroe, hdte]
  · intro d hroe hdte
    simp [compute_quality, hroe, hdte]

/-- C5 witness: a ticker with ROE `1/2` and D/E `3/2` scores
`((1/2 + 1/2)/(3/2) + (1 - (3/2)/3))/2 = 7/12`, inside `[0, 1]`; a ticker
with only ROE present (`ROE = 2`, clipped to `1`) scores `1`. -/
theorem C5_quality_witness :
    compute_quality ⟨none, none, none, some (3/2), some (1/2), none⟩ =
        some (7/12)
  ∧ compute_quality ⟨none, none, none, none, some 2, none⟩ = some 1 := by
  constructor
  · have h := (C5_quality ⟨none, none, none, some (3/2), some (1/2), none⟩).2.2.1
      (1/2) (3/2) rfl rfl
    rw [h]
    norm_num
  · have h := (C5_quality ⟨none, none, none, none, some 2, none⟩).2.2.2.1
      2 rfl rfl
    rw [h]
    norm_num

/-! ### C4 — momentum factor -/

/-- Reading with `getD` at an in-bounds index gives the list entry. -/
theorem getD_of_lt {α : Type} (l : List α) (i : ℕ) (d : α) (h : i < l.length) :
    l.getD i d = l[i] := by
  rw [List.getD_eq_getElem?_getD, List.getElem?_eq_getElem h, Option.getD_some]

/-- Applying `dropna` to a column of non-null entries keeps every value. -/
theorem dropna_map_some {α β : Type} (l : List β) (f : β → α) :
    dropna (l.map (fun b => some (f b))) = l.map f := by
  simp only [dropna, List.filterMap_map]
  exact congrFun (List.filterMap_eq_map f) l

/-- C4: momentum is `none` when fewer than `LONG_WINDOW` valid closes exist or
the long-window anchor is non-positive; otherwise it is
`(price_at_short_window_ago - price_at_long_window_ago) /
price_at_long_window_ago` with both anchors counted backward from the most
recent bar; it is positive on a strictly increasing valid-close path and
negative on a strictly decreasing one. -/
theorem C4_momentum (prices : List (Option ℚ)) :
    ((dropna prices).length < MOMENTUM_LONG_WINDOW_DAYS →
      compute_momentum prices = none)
  ∧ (MOMENTUM_LONG_WINDOW_DAYS ≤ (dropna prices).length →
      (dropna prices).getD
          ((dropna prices).length - MOMENTUM_LONG_WINDOW_DAYS) 0 ≤ 0 →
      compute_momentum prices = none)
  ∧ (MOMENTUM_LONG_WINDOW_DAYS ≤ (dropna prices).length →
      0 < (dropna prices).getD
          ((dropna prices).length - MOMENTUM_LONG_WINDOW_DAYS) 0 →
      compute_momentum prices =
        some (((dropna prices).getD
                 ((dropna prices).length - MOMENTUM_SHORT_WINDOW_DAYS) 0 -
               (dropna prices).getD
                 ((dropna prices).length - MOMENTUM_LONG_WINDOW_DAYS) 0) /
              (dropna prices).getD
                 ((dropna prices).length - MOMENTUM_LONG_WINDOW_DAYS) 0))
  ∧ (MOMENTUM_LONG_WINDOW_DAYS ≤ (dropna prices).length →
      (dropna prices).Pairwise (· < ·) →
      0 < (dropna prices).getD
          ((dropna prices).length - MOMENTUM_LONG_WINDOW_DAYS) 0 →
      ∃ m, compute_momentum prices = some m ∧ 0 < m)
  ∧ (MOMENTUM_LONG_WINDOW_DAYS ≤ (dropna prices).length →
      (dropna prices).Pairwise (· > ·) →
      0 < (dropna prices).getD
          ((dropna prices).length - MOMENTUM_LONG_WINDOW_DAYS) 0 →
      ∃ m, compute_momentum prices = some m ∧ m < 0) := by
  have anchor_lt :
      ∀ _ : MOMENTUM_LONG_WINDOW_DAYS ≤ (dropna prices).length,
        (dropna prices).length - MOMENTUM_LONG_WINDOW_DAYS <
          (dropna prices).length ∧
        (dropna prices).length - MOMENTUM_SHORT_WINDOW_DAYS <
          (dropna prices).length ∧
        (dropna prices).length - MOMENTUM_LONG_WINDOW_DAYS <
          (dropna prices).length - MOMENTUM_SHORT_WINDOW_DAYS := by
    intro h
    simp only [MOMENTUM_LONG_WINDOW_DAYS, MOMENTUM_SHORT_WINDOW_DAYS] at h ⊢
    omega
  have hval : ∀ (hge : MOMENTUM_LONG_WINDOW_DAYS ≤ (dropna prices).length),
      0 < (dropna prices).getD
          ((dropna prices).length - MOMENTUM_LONG_WINDOW_DAYS) 0 →
      compute_momentum prices =
        some (((dropna prices).getD
                 ((dropna prices).length - MOMENTUM_SHORT_WINDOW_DAYS) 0 -
               (dropna prices).getD
                 ((dropna prices).length - MOMENTUM_LONG_WINDOW_DAYS) 0) /
              (dropna prices).getD
                 ((dropna prices).length - MOMENTUM_LONG_WINDOW_DAYS) 0) := by
    intro hge hpos
    have hle := not_le.mpr hpos
    rw [List.getD_eq_getElem?_getD] at hle
    simp [compute_momentum, not_lt.mpr hge, hle, List.getD_eq_getElem?_getD]
  refine ⟨?_, ?_, hval, ?_, ?_⟩
  · intro h
    simp [compute_momentum, h]
  · intro hge hle
    rw [List.getD_eq_getElem?_getD] at hle
    simp [compute_momentum, not_lt.mpr hge, hle]
  · intro hge hmono hpos
    obtain ⟨hi, hj, hij⟩ := anchor_lt hge
    have hlt :
        (dropna prices).getD
            ((dropna prices).length - MOMENTUM_LONG_WINDOW_DAYS) 0 <
          (dropna prices).getD
            ((dropna prices).length - MOMENTUM_SHORT_WINDOW_DAYS) 0 := by
      rw [getD_of_lt _ _ _ hi, getD_of_lt _ _ _ hj]
      have := List.pairwise_iff_get.mp hmono ⟨_, hi⟩ ⟨_, hj⟩
        (Fin.mk_lt_mk.mpr hij)
      simpa using this
    exact ⟨_, hval hge hpos, div_pos (sub_pos.mpr hlt) hpos⟩
  · intro hge hmono hpos
    obtain ⟨hi, hj, hij⟩ := anchor_lt hge
    have hlt :
        (dropna prices).getD
            ((dropna prices).length - MOMENTUM_SHORT_WINDOW_DAYS) 0 <
          (dropna prices).getD
            ((dropna prices).length - MOMENTUM_LONG_WINDOW_DAYS) 0 := by
      rw [getD_of_lt _ _ _ hi, getD_of_lt _ _ _ hj]
      have := List.pairwise_iff_get.mp hmono ⟨_, hi⟩ ⟨_, hj⟩
        (Fin.mk_lt_mk.mpr hij)
      simpa using this
    exact ⟨_, hval hge hpos, div_neg_of_neg_of_pos (sub_neg.mpr hlt) hpos⟩

/-- C4 witness: on the 252 strictly increasing closes `1, 2, …, 252` the
momentum is defined and positive: `(232 - 1) / 1 = 231`. -/
theorem C4_momentum_witness :
    compute_momentum ((List.range 252).map (fun (i : ℕ) => some ((i : ℚ) + 1))) =
      some 231 := by
  have hc := dropna_map_some (List.range 252) (fun (i : ℕ) => ((i : ℚ) + 1))
  have h := (C4_momentum ((List.range 252).map
    (fun (i : ℕ) => some ((i : ℚ) + 1)))).2.2.1
  rw [hc] at h
  have e1 : ((List.range 252).map (fun (i : ℕ) => ((i : ℚ) + 1))).length -
      MOMENTUM_LONG_WINDOW_DAYS = 0 := by
    simp only [List.length_map, List.length_range, MOMENTUM_LONG_WINDOW_DAYS]
  have e2 : ((List.range 252).map (fun (i : ℕ) => ((i : ℚ) + 1))).length -
      MOMENTUM_SHORT_WINDOW_DAYS = 231 := by
    simp only [List.length_map, List.length_range, MOMENTUM_SHORT_WINDOW_DAYS]
  rw [e1, e2] at h
  have g0 : ((List.range 252).map (fun (i : ℕ) => ((i : ℚ) + 1))).getD 0 0 = 1 := by
    rw [getD_of_lt _ _ _ (by simp)]
    simp only [List.getElem_map, List.getElem_range]
    norm_num
  have g231 : ((List.range 252).map (fun (i : ℕ) => ((i : ℚ) + 1))).getD 231 0 =
      232 := by
    rw [getD_of_lt _ _ _ (by simp)]
    simp only [List.getElem_map, List.getElem_range]
    norm_num
  rw [g0, g231] at h
  rw [h (by simp [MOMENTUM_LONG_WINDOW_DAYS]) (by norm_num)]
  norm_num

/-! ### C7 — per-ticker failure isolation in the factor engine -/

/-- C7: if either fetch fails, `_score_single` returns the all-absent record
for that ticker instead of raising; on successful fetches the three factors
are computed independently — momentum and volatility depend only on the price
history, quality only on the fundamentals, so one factor being absent can
never make another factor absent. -/
theorem C7_score_single_failure_isolation :
    (∀ (t e : String) (fu : Except String Fundamentals),
      score_single t (Except.error e) fu = ⟨t, none, none, none⟩)
  ∧ (∀ (t e : String) (pr : Except String (List (Option ℚ))),
      score_single t pr (Except.error e) = ⟨t, none, none, none⟩)
  ∧ (∀ (t : String) (p : List (Option ℚ)) (f : Fundamentals),
      score_single t (Except.ok p) (Except.ok f) =
        ⟨t, (compute_momentum p).map (fun q => (q : ℝ)),
            (compute_quality f).map (fun q => (q : ℝ)),
            compute_volatility p⟩)
  ∧ (∀ (t : String) (p : List (Option ℚ)) (f g : Fundamentals),
      (score_single t (Except.ok p) (Except.ok f)).momentum =
        (score_single t (Except.ok p) (Except.ok g)).momentum ∧
      (score_single t (Except.ok p) (Except.ok f)).low_vol =
        (score_single t (Except.ok p) (Except.ok g)).low_vol)
  ∧ (∀ (t : String) (p q : List (Option ℚ)) (f : Fundamentals),
      (score_single t (Except.ok p) (Except.ok f)).quality =
        (score_single t (Except.ok q) (Except.ok f)).quality) := by
  refine ⟨?_, ?_, fun t p f => rfl, fun t p f g => ⟨rfl, rfl⟩,
    fun t p q f => rfl⟩
  · intro t e fu
    cases fu <;> rfl
  · intro t e pr
    cases pr <;> rfl

/-! ### C6 — low-volatility factor -/

/-- The length of a `pct_change` column is one less than its input. -/
theorem pct_change_length (xs : List ℚ) :
    (pct_change xs).length = xs.length - 1 := by
  simp only [pct_change, List.length_zipWith, List.length_tail]
  omega

/-- C6: the low-volatility factor is the raw annualised realised volatility
`std(daily simple returns over the trailing window) * sqrt 252`; it is `none`
when fewer than `VOLATILITY_WINDOW_DAYS` valid closes exist or fewer than 10
daily returns remain; every produced value is non-negative (raw, not
pre-inverted), and the ranker's step 1 (`invert_low_vol`) negates exactly the
`low_vol` field before z-scoring. -/
theorem C6_low_vol (prices : List (Option ℚ)) :
    ((dropna prices).length < VOLATILITY_WINDOW_DAYS →
      compute_volatility prices = none)
  ∧ ((pct_change ((dropna prices).drop
        ((dropna prices).length - VOLATILITY_WINDOW_DAYS))).length < 10 →
      compute_volatility prices = none)
  ∧ (VOLATILITY_WINDOW_DAYS ≤ (dropna prices).length →
      compute_volatility prices =
        some (Real.sqrt (sampleVarQ (pct_change ((dropna prices).drop
          ((dropna prices).length - VOLATILITY_WINDOW_DAYS)))) *
          Real.sqrt 252))
  ∧ (∀ v, compute_volatility prices = some v → 0 ≤ v)
  ∧ (∀ s : FactorScores, (invert_low_vol s).low_vol =
      s.low_vol.map (fun v => -v) ∧
      (invert_low_vol s).momentum = s.momentum ∧
      (invert_low_vol s).quality = s.quality ∧
      (invert_low_vol s).ticker = s.ticker) := by
  have hretlen : VOLATILITY_WINDOW_DAYS ≤ (dropna prices).length →
      (pct_change ((dropna prices).drop
        ((dropna prices).length - VOLATILITY_WINDOW_DAYS))).length = 62 := by
    intro hge
    rw [pct_change_length, List.length_drop]
    simp only [VOLATILITY_WINDOW_DAYS] at hge ⊢
    omega
  have hsome : VOLATILITY_WINDOW_DAYS ≤ (dropna prices).length →
      compute_volatility prices =
        some (Real.sqrt (sampleVarQ (pct_change ((dropna prices).drop
          ((dropna prices).length - VOLATILITY_WINDOW_DAYS)))) *
          Real.sqrt 252) := by
    intro hge
    have h62 := hretlen hge
    simp [compute_volatility, not_lt.mpr hge, h62]
  refine ⟨?_, ?_, hsome, ?_, ?_⟩
  · intro h
    simp [compute_volatility, h]
  · intro h
    rcases lt_or_ge (dropna prices).length VOLATILITY_WINDOW_DAYS with hlt | hge
    · simp [compute_volatility, hlt]
    · rw [hretlen hge] at h
      omega
  · intro v hv
    rcases lt_or_ge (dropna prices).length VOLATILITY_WINDOW_DAYS with hlt | hge
    · simp [compute_volatility, hlt] at hv
    · rw [hsome hge] at hv
      have := Option.some_injective _ hv
      rw [← this]
      exact mul_nonneg (Real.sqrt_nonneg _) (Real.sqrt_nonneg _)
  · intro s
    exact ⟨rfl, rfl, rfl, rfl⟩

/-- C6 witness: 63 constant closes give 62 zero returns, variance `0`, and an
annualised volatility of `sqrt 0 * sqrt 252 = 0`. -/
theorem C6_low_vol_witness :
    compute_volatility (List.replicate 63 (some (1 : ℚ))) = some 0 := by
  have hd : dropna (List.replicate 63 (some (1 : ℚ))) =
      List.replicate 63 (1 : ℚ) := by
    simp [dropna]
  have h := (C6_low_vol (List.replicate 63 (some (1 : ℚ)))).2.2.1
  rw [hd] at h
  have hlen : (List.replicate 63 (1 : ℚ)).length = 63 := by simp
  rw [h (by rw [hlen]; simp [VOLATILITY_WINDOW_DAYS])]
  have hpc : pct_change (List.replicate 63 (1 : ℚ)) =
      List.replicate 62 0 := by
    rw [pct_change, List.tail_replicate, List.zipWith_replicate]
    norm_num
  have hvar : sampleVarQ (pct_change ((List.replicate 63 (1 : ℚ)).drop
      ((List.replicate 63 (1 : ℚ)).length - VOLATILITY_WINDOW_DAYS))) = 0 := by
    rw [hlen]
    simp only [VOLATILITY_WINDOW_DAYS, Nat.sub_self, List.drop_zero]
    rw [hpc]
    have hm : meanQ (List.replicate 62 (0 : ℚ)) = 0 := by
      simp [meanQ, List.sum_replicate]
    simp only [sampleVarQ, hm, sub_zero]
    rw [List.map_replicate, List.sum_replicate]
    norm_num
  rw [hvar]
  simp

/-! ### Ranker helper lemmas -/

/-- Both branches of `zscore_col` preserve the column length. -/
theorem zscore_col_length (xs : List (Option ℝ)) :
    (zscore_col xs).length = xs.length := by
  rw [zscore_col]
  split_ifs <;> simp

/-- A missing entry of a factor column z-scores to the neutral `0`. -/
theorem zscore_col_none (xs : List (Option ℝ)) (i : ℕ) (h : i < xs.length)
    (hn : xs.getD i none = none) : (zscore_col xs).getD i 0 = 0 := by
  have hx : xs[i] = none := by
    rw [getD_of_lt _ _ _ h] at hn
    exact hn
  rw [zscore_col]
  split_ifs
  · rw [getD_of_lt _ _ _ (by simpa using h)]
    simp
  · rw [getD_of_lt _ _ _ (by simpa using h)]
    simp only [List.getElem_map, hx]

/-- The sample variance of at least two reals is non-negative. -/
theorem sampleVarR_nonneg (xs : List ℝ) (h : 2 ≤ xs.length) :
    0 ≤ sampleVarR xs := by
  apply div_nonneg
  · apply List.sum_nonneg
    intro x hx
    obtain ⟨y, _, rfl⟩ := List.mem_map.mp hx
    positivity
  · have h2 : (2 : ℝ) ≤ (xs.length : ℝ) := by exact_mod_cast h
    linarith

/-- A constant column has zero sample variance. -/
theorem sampleVarR_const (xs : List ℝ) (c : ℝ) (h : ∀ x ∈ xs, x = c) :
    sampleVarR xs = 0 := by
  rcases xs with _ | ⟨a, l⟩
  · simp [sampleVarR]
  · have hmean : meanR (a :: l) = c := by
      have hsum : (a :: l).sum = (a :: l).length • c :=
        List.sum_eq_card_nsmul _ _ h
      rw [meanR, hsum, nsmul_eq_mul]
      exact mul_div_cancel_left₀ c
        (Nat.cast_ne_zero.mpr (List.length_cons a l ▸ Nat.succ_ne_zero l.length))
    have hmap : (a :: l).map (fun x => (x - meanR (a :: l)) ^ 2) =
        (a :: l).map (fun _ => 0) := by
      apply List.map_congr_left
      intro x hx
      rw [h x hx, hmean]
      ring
    rw [sampleVarR, hmap]
    simp

/-- The length of the z-scored dataframe equals the kept universe size. -/
theorem scored_rows_length (kept : List FactorScores) :
    (scored_rows kept).length = kept.length := by
  simp [scored_rows]

/-- The row of `scored_rows` at an in-bounds position, written out. -/
theorem scored_rows_getD (kept : List FactorScores) (i : ℕ)
    (h : i < kept.length) :
    (scored_rows kept).getD i default =
      { ticker := (kept.getD i default).ticker
        momentum_z := (zscore_col (kept.map (fun s => s.momentum))).getD i 0
        quality_z := (zscore_col (kept.map (fun s => s.quality))).getD i 0
        low_vol_z := (zscore_col (kept.map (fun s => s.low_vol))).getD i 0
        composite_score :=
          FACTOR_WEIGHTS_momentum *
            (zscore_col (kept.map (fun s => s.momentum))).getD i 0 +
          FACTOR_WEIGHTS_quality *
            (zscore_col (kept.map (fun s => s.quality))).getD i 0 +
          FACTOR_WEIGHTS_low_vol *
            (zscore_col (kept.map (fun s => s.low_vol))).getD i 0 } := by
  simp only [scored_rows]
  rw [getD_of_lt _ _ _ (by simpa using h)]
  rw [List.getElem_map, List.getElem_range]

/-- The sort step is a permutation of its input. -/
theorem sort_rows_perm (rows : List ScoredRow) : (sort_rows rows).Perm rows :=
  List.perm_insertionSort composite_ge rows

/-- The sort step produces a list sorted by descending composite score. -/
theorem sort_rows_sorted (rows : List ScoredRow) :
    (sort_rows rows).Pairwise composite_ge :=
  List.sorted_insertionSort composite_ge rows

/-- The sort step preserves the number of rows. -/
theorem sort_rows_length (rows : List ScoredRow) :
    (sort_rows rows).length = rows.length :=
  List.length_insertionSort composite_ge rows

/-- Rounding to four decimal places is monotone. -/
theorem round4_mono {a b : ℝ} (h : a ≤ b) : round4 a ≤ round4 b := by
  rw [round4, round4]
  apply div_le_div_of_nonneg_right _ (by norm_num : (0 : ℝ) ≤ 10000)
  have : round (a * 10000) ≤ round (b * 10000) := by
    rw [round_eq, round_eq]
    exact Int.floor_le_floor (by linarith)
  exact_mod_cast this

/-- Taking `df_head` of an empty frame is empty. -/
theorem df_head_nil {α : Type} (n : ℤ) : df_head n ([] : List α) = [] := by
  rw [df_head]
  split_ifs <;> simp

/-- Unfolds `rank_stocks` into one expression: the two early empty returns
coincide with the generic pipeline on an empty kept universe. -/
theorem rank_stocks_unfold (fs : List FactorScores) (t : Option ℤ) :
    rank_stocks fs t =
      df_head (resolve_top_n t)
        (((sort_rows (scored_rows (drop_all_missing
            (fs.map invert_low_vol)))).enum).map
          (fun p => to_ranked p.1 p.2)) := by
  simp only [rank_stocks]
  split_ifs with h1 h2
  · obtain rfl : fs = [] := List.isEmpty_iff.mp h1
    rw [show drop_all_missing (List.map invert_low_vol []) = [] from rfl]
    rw [show scored_rows [] = [] from rfl,
      show sort_rows [] = [] from rfl]
    rw [show (List.enum ([] : List ScoredRow)).map
        (fun p => to_ranked p.1 p.2) = [] from rfl]
    rw [df_head_nil]
  · rw [List.isEmpty_iff.mp h2]
    rw [show scored_rows [] = [] from rfl, show sort_rows [] = [] from rfl]
    rw [show (List.enum ([] : List ScoredRow)).map
        (fun p => to_ranked p.1 p.2) = [] from rfl]
    rw [df_head_nil]
  · rfl

/-- Length of the truncated ranked output. -/
theorem ranked_take_length (L : List ScoredRow) (k : ℕ) :
    (((L.enum).map (fun p => to_ranked p.1 p.2)).take k).length =
      min k L.length := by
  simp [List.length_take, List.enum_length]

/-- The rank column of the truncated ranked output is `1, 2, …`. -/
theorem ranked_take_ranks (L : List ScoredRow) (k : ℕ) :
    ((((L.enum).map (fun p => to_ranked p.1 p.2)).take k).map
      (fun r => r.rank)) = List.range' 1 (min k L.length) := by
  rw [List.map_take, List.map_map]
  rw [show ((fun r : RankedStock => r.rank) ∘
      (fun p : ℕ × ScoredRow => to_ranked p.1 p.2)) =
      ((fun x => x + 1) ∘ Prod.fst) from rfl]
  rw [← List.map_map, ← List.map_take, List.enum_map_fst, List.take_range,
    List.range'_eq_map_range]
  exact List.map_congr_left (fun x _ => Nat.add_comm x 1)

/-- Pairwise relations transfer from a row list to its enumeration. -/
theorem pairwise_enum_snd {r : ScoredRow → ScoredRow → Prop}
    (L : List ScoredRow) (h : L.Pairwise r) :
    L.enum.Pairwise (fun p q => r p.2 q.2) :=
  List.pairwise_map.mp (by rwa [List.enum_map_snd])

/-! ### C3 — z-score degenerate-dispersion guard -/

/-- C3: whenever a factor's cross-sectional sample standard deviation is zero
or undefined (fewer than two present values — in particular a single retained
ticker — or all present values identical), `zscore_col` assigns the neutral
z-score `0.0` to every ticker; otherwise the divisor
`sqrt (sample variance)` is strictly positive, so the z-scoring step never
divides by zero and is total. -/
theorem C3_zscore_guard (xs : List (Option ℝ)) :
    ((dropna xs).length < 2 → zscore_col xs = xs.map (fun _ => 0))
  ∧ (Real.sqrt (sampleVarR (dropna xs)) = 0 →
      zscore_col xs = xs.map (fun _ => 0))
  ∧ (∀ c, (∀ x ∈ dropna xs, x = c) → zscore_col xs = xs.map (fun _ => 0))
  ∧ (2 ≤ (dropna xs).length → sampleVarR (dropna xs) ≠ 0 →
      0 < Real.sqrt (sampleVarR (dropna xs))) := by
  have hguard : ((dropna xs).length < 2 ∨ sampleVarR (dropna xs) = 0) →
      zscore_col xs = xs.map (fun _ => 0) := by
    intro h
    rw [zscore_col, if_pos h]
  refine ⟨fun h => hguard (Or.inl h), ?_, ?_, ?_⟩
  · intro h
    rcases lt_or_ge (dropna xs).length 2 with hlt | hge
    · exact hguard (Or.inl hlt)
    · exact hguard (Or.inr ((Real.sqrt_eq_zero
        (sampleVarR_nonneg _ hge)).mp h))
  · intro c hc
    exact hguard (Or.inr (sampleVarR_const _ c hc))
  · intro hge hne
    rw [Real.sqrt_pos]
    exact lt_of_le_of_ne (sampleVarR_nonneg _ hge) (Ne.symm hne)

/-- C3 witness: a column with two identical present values and one missing
value z-scores to all neutral zeros. -/
theorem C3_zscore_guard_witness :
    zscore_col [some (1 : ℝ), some 1, none] = [0, 0, 0] := by
  have h := (C3_zscore_guard [some (1 : ℝ), some 1, none]).2.2.1 1 (by
    intro x hx
    rw [show dropna [some (1 : ℝ), some 1, none] = [1, 1] from rfl] at hx
    simpa using hx)
  exact h.trans rfl

/-! ### C1 — all-absent drop rule and neutral fill -/

/-- If a factor is missing for the kept ticker at position `i`, its z-score at
position `i` weighs in as zero. -/
theorem zscore_field_if (kept : List FactorScores) (i : ℕ)
    (h : i < kept.length) (f : FactorScores → Option ℝ) (w : ℝ) :
    (if (f (kept.getD i default)).isSome = true then
      w * (zscore_col (kept.map f)).getD i 0 else 0) =
    w * (zscore_col (kept.map f)).getD i 0 := by
  cases hf : f (kept.getD i default) with
  | some v => simp [hf]
  | none =>
    have hz : (zscore_col (kept.map f)).getD i 0 = 0 := by
      apply zscore_col_none _ _ (by simpa using h)
      rw [getD_of_lt _ _ _ (by simpa using h), List.getElem_map]
      rw [← getD_of_lt kept i default h]
      exact hf
    rw [hz]
    simp

/-- C1: a ticker with all three factors absent is removed by the drop step
while any ticker with at least one present factor is kept; a missing factor
z-scores to exactly `0.0`; hence each row's composite score equals the
weighted sum over only its present factors' z-scores (absent factors
contribute the zero term). -/
theorem C1_drop_and_neutral_fill :
    (∀ (l : List FactorScores) (s : FactorScores),
      s ∈ drop_all_missing l ↔
        s ∈ l ∧ (s.momentum ≠ none ∨ s.quality ≠ none ∨ s.low_vol ≠ none))
  ∧ (∀ (xs : List (Option ℝ)) (i : ℕ), i < xs.length →
      xs.getD i none = none → (zscore_col xs).getD i 0 = 0)
  ∧ (∀ (kept : List FactorScores) (i : ℕ), i < kept.length →
      ((scored_rows kept).getD i default).composite_score =
        (if (kept.getD i default).momentum.isSome then
          FACTOR_WEIGHTS_momentum *
            ((scored_rows kept).getD i default).momentum_z else 0) +
        (if (kept.getD i default).quality.isSome then
          FACTOR_WEIGHTS_quality *
            ((scored_rows kept).getD i default).quality_z else 0) +
        (if (kept.getD i default).low_vol.isSome then
          FACTOR_WEIGHTS_low_vol *
            ((scored_rows kept).getD i default).low_vol_z else 0)) := by
  refine ⟨?_, zscore_col_none, ?_⟩
  · intro l s
    rw [drop_all_missing, List.mem_filter]
    simp [has_any_factor, Option.isSome_iff_ne_none, or_assoc]
  · intro kept i h
    rw [scored_rows_getD kept i h]
    rw [zscore_field_if kept i h (fun s => s.momentum) FACTOR_WEIGHTS_momentum,
      zscore_field_if kept i h (fun s => s.quality) FACTOR_WEIGHTS_quality,
      zscore_field_if kept i h (fun s => s.low_vol) FACTOR_WEIGHTS_low_vol]

/-- C1 witness: a missing entry z-scores to `0`, and a ticker with only its
momentum factor present survives the drop step. -/
theorem C1_drop_and_neutral_fill_witness :
    ((zscore_col [some (1 : ℝ), none]).getD 1 0 = 0)
  ∧ (⟨"A", some 1, none, some 2⟩ : FactorScores) ∈
      drop_all_missing [⟨"A", some 1, none, some 2⟩] := by
  constructor
  · exact C1_drop_and_neutral_fill.2.1 [some (1 : ℝ), none] 1 (by norm_num) rfl
  · exact (C1_drop_and_neutral_fill.1 _ _).mpr
      ⟨List.mem_singleton.mpr rfl, Or.inl (by simp)⟩

/-! ### C2 — tie-breaking of the descending sort -/

/-- C2 failing input: a universe of seventeen tickers with identical factor
values.  After inverting and dropping, all seventeen tickers survive and
every z-score column falls into the zero-variance guard, so every composite
score ties at exactly `0`: the composite column of the working dataframe is
seventeen zeros.  The output order is then decided entirely by how
`sort_values("composite_score", ascending=False)` breaks ties, and the
source calls it with the default `kind="quicksort"`, which pandas documents
as unstable — the program does not provide the input-relative tie order that
the claim (and the specification's "stable sort") requires. -/
theorem C2_tied_composites_at_failing_input :
    (scored_rows (drop_all_missing
        (((List.range 17).map (fun i =>
          FactorScores.mk (toString i) (some 1) (some 1) (some 1))).map
            invert_low_vol))).map (fun r => r.composite_score) =
      List.replicate 17 0 := by
  have hkept : drop_all_missing
      (((List.range 17).map (fun i =>
        FactorScores.mk (toString i) (some 1) (some 1) (some 1))).map
          invert_low_vol) =
      (List.range 17).map (fun i =>
        FactorScores.mk (toString i) (some 1) (some 1) (some (-1))) := rfl
  have hcolm : ((List.range 17).map (fun i =>
      FactorScores.mk (toString i) (some 1) (some 1) (some (-1)))).map
        (fun s => s.momentum) = List.replicate 17 (some (1 : ℝ)) := rfl
  have hcolq : ((List.range 17).map (fun i =>
      FactorScores.mk (toString i) (some 1) (some 1) (some (-1)))).map
        (fun s => s.quality) = List.replicate 17 (some (1 : ℝ)) := rfl
  have hcolv : ((List.range 17).map (fun i =>
      FactorScores.mk (toString i) (some 1) (some 1) (some (-1)))).map
        (fun s => s.low_vol) = List.replicate 17 (some (-1 : ℝ)) := rfl
  have hz : ∀ c : ℝ, zscore_col (List.replicate 17 (some c)) =
      List.replicate 17 0 := by
    intro c
    have hvar : sampleVarR (dropna (List.replicate 17 (some c))) = 0 := by
      rw [show dropna (List.replicate 17 (some c)) =
        List.replicate 17 c from by simp [dropna]]
      exact sampleVarR_const _ c (fun x hx => List.eq_of_mem_replicate hx)
    rw [zscore_col, if_pos (Or.inr hvar)]
    exact List.map_replicate ..
  have hget : ∀ i : ℕ, (List.replicate 17 (0 : ℝ)).getD i 0 = 0 := by
    intro i
    rcases lt_or_ge i 17 with h | h
    · rw [getD_of_lt _ _ _ (by simpa using h)]
      exact List.getElem_replicate ..
    · rw [List.getD_eq_getElem?_getD, List.getElem?_eq_none (by simpa using h)]
      rfl
  rw [hkept]
  simp only [scored_rows, hcolm, hcolq, hcolv, hz, hget, mul_zero, add_zero]
  rw [List.map_map]
  rfl

/-! ### C8 — degenerate inputs -/

/-- C8: an empty input yields an empty output (no error); a universe in which
every ticker has all factors absent yields an empty output; a `top_n` at
least the surviving universe size returns exactly the survivors with no
padding; and a single scoreable ticker with `top_n = 3` yields exactly one
entry with rank 1 carrying that ticker. -/
theorem C8_degenerate_inputs :
    (∀ t, rank_stocks [] t = [])
  ∧ (∀ (fs : List FactorScores) (t : Option ℤ),
      (∀ s ∈ fs, s.momentum = none ∧ s.quality = none ∧ s.low_vol = none) →
      rank_stocks fs t = [])
  ∧ (∀ (fs : List FactorScores) (n : ℤ), 0 < n →
      (drop_all_missing (fs.map invert_low_vol)).length ≤ n.toNat →
      (rank_stocks fs (some n)).length =
        (drop_all_missing (fs.map invert_low_vol)).length)
  ∧ (∀ s : FactorScores, has_any_factor s = true →
      (rank_stocks [s] (some 3)).length = 1 ∧
      (rank_stocks [s] (some 3)).map (fun r => r.rank) = [1] ∧
      (rank_stocks [s] (some 3)).map (fun r => r.ticker) = [s.ticker]) := by
  refine ⟨?_, ?_, ?_, ?_⟩
  · intro t
    simp [rank_stocks]
  · intro fs t h
    have hkept : drop_all_missing (fs.map invert_low_vol) = [] := by
      rw [drop_all_missing, List.filter_eq_nil_iff]
      intro a ha
      obtain ⟨s, hs, rfl⟩ := List.mem_map.mp ha
      obtain ⟨h1, h2, h3⟩ := h s hs
      simp [has_any_factor, invert_low_vol, h1, h2, h3]
    rw [rank_stocks_unfold, hkept]
    rw [show scored_rows [] = [] from rfl, show sort_rows [] = [] from rfl]
    rw [show (List.enum ([] : List ScoredRow)).map
      (fun p => to_ranked p.1 p.2) = [] from rfl, df_head_nil]
  · intro fs n hn hk
    have hres : resolve_top_n (some n) = n := by
      rw [resolve_top_n]
      simp only [if_neg (by omega : ¬n = 0)]
    rw [rank_stocks_unfold, hres, df_head, if_pos hn.le]
    rw [List.length_take, List.length_map, List.enum_length,
      sort_rows_length, scored_rows_length]
    exact min_eq_right hk
  · intro s hs
    have hany : has_any_factor (invert_low_vol s) = true := by
      simpa [has_any_factor, invert_low_vol, Option.isSome_map'] using hs
    have hkept : drop_all_missing ([s].map invert_low_vol) =
        [invert_low_vol s] := by
      rw [drop_all_missing]
      simp [List.filter_cons, hany]
    refine ⟨?_, ?_, ?_⟩
    · rw [rank_stocks_unfold, hkept,
        show resolve_top_n (some 3) = 3 from rfl, df_head,
        if_pos (by norm_num : (0 : ℤ) ≤ 3)]
      rw [List.length_take, List.length_map, List.enum_length,
        sort_rows_length, scored_rows_length]
      rfl
    · rw [rank_stocks_unfold, hkept,
        show resolve_top_n (some 3) = 3 from rfl, df_head,
        if_pos (by norm_num : (0 : ℤ) ≤ 3), ranked_take_ranks,
        sort_rows_length, scored_rows_length]
      rfl
    · rw [rank_stocks_unfold, hkept,
        show resolve_top_n (some 3) = 3 from rfl, df_head,
        if_pos (by norm_num : (0 : ℤ) ≤ 3)]
      rfl

/-- C8 witness: the empty universe, an all-absent singleton, and a scoreable
singleton with `top_n = 3`. -/
theorem C8_degenerate_inputs_witness :
    rank_stocks [] (some 2) = []
  ∧ rank_stocks [⟨"BAD", none, none, none⟩] (some 3) = []
  ∧ (rank_stocks [⟨"ONLY", some (1/5), some (1/2), some (3/20)⟩]
      (some 3)).length = 1
  ∧ (rank_stocks [⟨"ONLY", some (1/5), some (1/2), some (3/20)⟩]
      (some 3)).map (fun r => r.rank) = [1] := by
  refine ⟨C8_degenerate_inputs.1 (some 2), ?_, ?_, ?_⟩
  · apply C8_degenerate_inputs.2.1 _ (some 3)
    intro s hs
    rw [List.mem_singleton] at hs
    subst hs
    exact ⟨rfl, rfl, rfl⟩
  · exact (C8_degenerate_inputs.2.2.2
      ⟨"ONLY", some (1/5), some (1/2), some (3/20)⟩ rfl).1
  · exact (C8_degenerate_inputs.2.2.2
      ⟨"ONLY", some (1/5), some (1/2), some (3/20)⟩ rfl).2.1

/-! ### C10 — falsy `top_n` falls back to the configured default -/

/-- C10: a falsy `top_n` (`0` or `None`) is replaced by
`TOP_N_PER_SECTOR`, so `rank_stocks scores (some 0)` behaves exactly like the
default call and returns up to `TOP_N_PER_SECTOR` entries — not the empty
list — whenever the scoreable universe is non-empty. -/
theorem C10_falsy_top_n_default :
    (∀ fs, rank_stocks fs (some 0) = rank_stocks fs none)
  ∧ (∀ fs, rank_stocks fs (some 0) = rank_stocks fs (some TOP_N_PER_SECTOR))
  ∧ resolve_top_n (some 0) = TOP_N_PER_SECTOR
  ∧ resolve_top_n none = TOP_N_PER_SECTOR
  ∧ (∀ fs, drop_all_missing (fs.map invert_low_vol) ≠ [] →
      rank_stocks fs (some 0) ≠ [] ∧
      (rank_stocks fs (some 0)).length ≤ TOP_N_PER_SECTOR.toNat) := by
  have hr : ∀ t₁ t₂ : Option ℤ, resolve_top_n t₁ = resolve_top_n t₂ →
      ∀ fs, rank_stocks fs t₁ = rank_stocks fs t₂ := by
    intro t₁ t₂ h fs
    rw [rank_stocks_unfold, rank_stocks_unfold, h]
  refine ⟨hr _ _ rfl, hr _ _ rfl, rfl, rfl, ?_⟩
  intro fs hne
  have hlen : (rank_stocks fs (some 0)).length =
      min 3 (drop_all_missing (fs.map invert_low_vol)).length := by
    rw [rank_stocks_unfold, show resolve_top_n (some 0) = 3 from rfl,
      df_head, if_pos (by norm_num : (0 : ℤ) ≤ 3)]
    rw [List.length_take, List.length_map, List.enum_length,
      sort_rows_length, scored_rows_length]
    rfl
  have hpos := List.length_pos.mpr hne
  constructor
  · intro hcon
    rw [hcon] at hlen
    simp only [List.length_nil] at hlen
    omega
  · rw [hlen, show TOP_N_PER_SECTOR.toNat = 3 from rfl]
    exact min_le_left _ _

/-- C10 witness: for a one-ticker scoreable universe, `top_n = 0` does not
produce the empty list and stays within the default of 3 entries. -/
theorem C10_falsy_top_n_default_witness :
    rank_stocks [⟨"A", some 1, none, none⟩] (some 0) ≠ []
  ∧ (rank_stocks [⟨"A", some 1, none, none⟩] (some 0)).length ≤
      TOP_N_PER_SECTOR.toNat :=
  C10_falsy_top_n_default.2.2.2.2 [⟨"A", some 1, none, none⟩]
    (by simp [drop_all_missing, invert_low_vol, has_any_factor])
